import Mathlib

/-!
Verification development for the job-scraper ingestion pipeline.

Shallow embedding of the Python sources:
  * `tools/normalize.py`   — region gate, canonical-key derivation, date parsing
  * `tools/scoring.py`     — relevance scoring
  * `database/local_db.py` — `upsert_jobs` reconciliation
  * `connectors/workday_cxs.py` — paged-API connector
  * `tools/ingest_jobs.py` — orchestrator `run_from_sources_csv`

Strings are ASCII in every input the pipeline sees; the Python `str`
operations are modelled at ASCII fidelity (noted where Unicode could differ).
-/

namespace JobScraper

/-! ## Python string primitives -/

/-- Python whitespace for `str.strip()` (ASCII subset; the inputs are ASCII). -/
def pyIsSpace (c : Char) : Bool :=
  c == ' ' || c == '\t' || c == '\n' || c == '\r' || c == '\x0b' || c == '\x0c'

def trimList (l : List Char) : List Char :=
  ((l.dropWhile pyIsSpace).reverse.dropWhile pyIsSpace).reverse

/-- `str.strip()`. -/
def pyStrip (s : String) : String := ⟨trimList s.data⟩

/-- `str.lower()` (ASCII). -/
def pyLower (s : String) : String := ⟨s.data.map Char.toLower⟩

/-- `str.rstrip("/")`. -/
def pyRstripSlash (s : String) : String :=
  ⟨(s.data.reverse.dropWhile (· == '/')).reverse⟩

/-- first `n` characters, Python `s[:n]`. -/
def pyTake (n : Nat) (s : String) : String := ⟨s.data.take n⟩

def isPrefixList : List Char → List Char → Bool
  | [], _ => true
  | _, [] => false
  | a :: as', b :: bs => a == b && isPrefixList as' bs

/-- `str.startswith(p)`. -/
def pyStartsWith (s p : String) : Bool := isPrefixList p.data s.data

def containsSubstrAux (sub : List Char) : List Char → Bool
  | [] => sub.isEmpty
  | c :: rest => isPrefixList sub (c :: rest) || containsSubstrAux sub rest

/-- Python `sub in s` for strings. -/
def containsSubstr (s sub : String) : Bool := containsSubstrAux sub.data s.data

/-- regex `\w` (ASCII; the scraped inputs are ASCII). -/
def isWordChar (c : Char) : Bool := c.isAlphanum || c == '_'

def charEqCI (a b : Char) : Bool := a.toLower == b.toLower

/-- Case-insensitive literal match of `w` at the head of `s`; returns the rest. -/
def matchesCI : List Char → List Char → Option (List Char)
  | [], s => some s
  | _ :: _, [] => none
  | pw :: wrest, ps :: srest => if charEqCI ps pw then matchesCI (wrest) srest else none

def headNotWord : List Char → Bool
  | [] => true
  | c :: _ => !isWordChar c

def checkWordHere (w s : List Char) : Bool :=
  match matchesCI w s with
  | some rest => headNotWord rest
  | none => false

def containsWordCIAux (w : List Char) : Bool → List Char → Bool
  | prevOk, [] => prevOk && checkWordHere w []
  | prevOk, c :: rest =>
    (prevOk && checkWordHere w (c :: rest)) || containsWordCIAux w (!isWordChar c) rest

/-- `re.search(rf"\b{re.escape(word)}\b", hay, flags=re.I) is not None`
(`_contains_word` of tools/normalize.py); the words used all start and end
with a word character, so `\b` means: the previous/next character is absent
or not a word character. -/
def containsWordCI (hay word : String) : Bool :=
  containsWordCIAux word.data true hay.data

/-! ## URL parsing (`urllib.parse.urlparse` / `parse_qs`), to the fidelity
the region gate needs: extraction of the path and of the decoded query
values. -/

def splitOnFirstChar (sep : Char) : List Char → List Char × Option (List Char)
  | [] => ([], none)
  | c :: rest =>
    if c == sep then ([], some rest)
    else
      let r := splitOnFirstChar sep rest
      (c :: r.1, r.2)

def splitAllChar (sep : Char) : List Char → List (List Char)
  | [] => [[]]
  | c :: rest =>
    if c == sep then [] :: splitAllChar sep rest
    else
      match splitAllChar sep rest with
      | [] => [[c]]
      | h :: t => (c :: h) :: t

def validScheme : List Char → Bool
  | [] => false
  | c :: rest => c.isAlpha && rest.all (fun x => x.isAlphanum || x == '+' || x == '-' || x == '.')

/-- Drop a leading `scheme:` when the prefix before the first `:` is a valid
RFC scheme, as `urlsplit` does. -/
def stripScheme (l : List Char) : List Char :=
  let pre := l.takeWhile (· ≠ ':')
  if pre.length < l.length && validScheme pre then l.drop (pre.length + 1) else l

/-- Drop a leading `//netloc` (netloc extends to the next `/` or `?`). -/
def dropNetloc (l : List Char) : List Char :=
  match l with
  | '/' :: '/' :: rest =>
    let nl := rest.takeWhile (fun c => c ≠ '/' && c ≠ '?')
    rest.drop nl.length
  | _ => l

/-- The `(path, query)` components `urlparse` assigns to a URL (fragment cut
at the first `#`, scheme and netloc removed, query after the first `?`). -/
def urlPathQuery (u : String) : String × String :=
  let l := (splitOnFirstChar '#' u.data).1
  let l := stripScheme l
  let l := dropNetloc l
  let pq := splitOnFirstChar '?' l
  (⟨pq.1⟩, ⟨pq.2.getD []⟩)

def urlPath (u : String) : String := (urlPathQuery u).1

def urlQuery (u : String) : String := (urlPathQuery u).2

def hexVal (c : Char) : Nat :=
  if c.isDigit then c.toNat - '0'.toNat
  else if 'a' ≤ c ∧ c ≤ 'f' then c.toNat - 'a'.toNat + 10
  else if 'A' ≤ c ∧ c ≤ 'F' then c.toNat - 'A'.toNat + 10
  else 0

def isHexChar (c : Char) : Bool :=
  c.isDigit || ('a' ≤ c && c ≤ 'f') || ('A' ≤ c && c ≤ 'F')

/-- Percent-decoding as in `urllib.parse.unquote` (single-byte ASCII
escapes; multi-byte UTF-8 sequences do not occur in the modelled inputs). -/
def pctDecode : List Char → List Char
  | [] => []
  | '%' :: a :: b :: rest =>
    if isHexChar a && isHexChar b then Char.ofNat (16 * hexVal a + hexVal b) :: pctDecode rest
    else '%' :: pctDecode (a :: b :: rest)
  | c :: rest => c :: pctDecode rest

/-- `urllib.parse.unquote_plus`. -/
def unquotePlus (l : List Char) : List Char :=
  pctDecode (l.map (fun c => if c == '+' then ' ' else c))

/-- `urllib.parse.parse_qsl(query)` with the default
`keep_blank_values=False`: pieces split on `&`; a piece without `=` or with
an empty value is dropped; names and values are plus/percent decoded. -/
def parseQsl (query : String) : List (String × String) :=
  (splitAllChar '&' query.data).filterMap fun piece =>
    if piece.isEmpty then none
    else
      match splitOnFirstChar '=' piece with
      | (_, none) => none
      | (n, some v) =>
        if v.isEmpty then none
        else some (⟨unquotePlus n⟩, ⟨unquotePlus v⟩)

/-! ## `datetime.strptime` for the formats tried by `normalize_job`, and
`datetime.isoformat` for storing the parsed value. Directives follow
CPython's `_strptime` regexes (`%Y` is exactly four digits, `%m`/`%d`/`%H`
etc. accept one or two digits within range); building the `datetime`
rejects out-of-calendar dates, which makes the format attempt fail and the
next format be tried. -/

structure PyDateTime where
  year : Nat
  month : Nat
  day : Nat
  hour : Nat
  minute : Nat
  second : Nat
  micro : Nat
  /-- UTC offset in minutes when the format carried `%z` / a literal parse
  produced an aware datetime. -/
  tzMinutes : Option Int
deriving DecidableEq, Repr

def digitVal (c : Char) : Nat := c.toNat - '0'.toNat

/-- Exactly `n` digits. -/
def pFixedDigits : Nat → List Char → Option (Nat × List Char)
  | 0, l => some (0, l)
  | n + 1, c :: rest =>
    if c.isDigit then
      match pFixedDigits n rest with
      | some (v, l') => some (digitVal c * 10 ^ n + v, l')
      | none => none
    else none
  | _ + 1, [] => none

/-- An ordered two-digit / one-digit alternation, as in the `_strptime`
regexes of the form `XY|Z`. -/
def pAlt2or1 (ok2 : Nat → Nat → Bool) (ok1 : Nat → Bool) : List Char → Option (Nat × List Char)
  | a :: b :: rest =>
    if a.isDigit && b.isDigit && ok2 (digitVal a) (digitVal b) then
      some (10 * digitVal a + digitVal b, rest)
    else if a.isDigit && ok1 (digitVal a) then some (digitVal a, b :: rest)
    else none
  | [a] => if a.isDigit && ok1 (digitVal a) then some (digitVal a, []) else none
  | [] => none

/-- `%Y`: `\d\d\d\d`. -/
def pY : List Char → Option (Nat × List Char) := pFixedDigits 4

/-- `%m`: `1[0-2]|0[1-9]|[1-9]`. -/
def pMon : List Char → Option (Nat × List Char) :=
  pAlt2or1 (fun a b => (a == 1 && b ≤ 2) || (a == 0 && 1 ≤ b)) (fun v => 1 ≤ v)

/-- `%d`: `3[01]|[12]\d|0[1-9]|[1-9]| [1-9]` (the space-padded branch). -/
def pDay (l : List Char) : Option (Nat × List Char) :=
  match l with
  | ' ' :: b :: rest => if b.isDigit && 1 ≤ digitVal b then some (digitVal b, rest) else none
  | _ =>
    pAlt2or1
      (fun a b => (a == 3 && b ≤ 1) || a == 1 || a == 2 || (a == 0 && 1 ≤ b))
      (fun v => 1 ≤ v) l

/-- `%H`: `2[0-3]|[0-1]\d|\d`. -/
def pHour : List Char → Option (Nat × List Char) :=
  pAlt2or1 (fun a b => (a == 2 && b ≤ 3) || a ≤ 1) (fun _ => true)

/-- `%M`: `[0-5]\d|\d`. -/
def pMin : List Char → Option (Nat × List Char) :=
  pAlt2or1 (fun a _ => a ≤ 5) (fun _ => true)

/-- `%S`: `6[0-1]|[0-5]\d|\d` (leap seconds pass the regex and are rejected
when the `datetime` is built). -/
def pSec : List Char → Option (Nat × List Char) :=
  pAlt2or1 (fun a b => (a == 6 && b ≤ 1) || a ≤ 5) (fun _ => true)

/-- `%f`: one to six digits, scaled to microseconds. -/
def pFrac (l : List Char) : Option (Nat × List Char) :=
  let ds := l.takeWhile Char.isDigit
  let ds6 := ds.take 6
  if ds6.isEmpty then none
  else
    let v := ds6.foldl (fun acc c => acc * 10 + digitVal c) 0
    some (v * 10 ^ (6 - ds6.length), l.drop ds6.length)

def monthAbbrevs : List (String × Nat) :=
  [("jan", 1), ("feb", 2), ("mar", 3), ("apr", 4), ("may", 5), ("jun", 6),
   ("jul", 7), ("aug", 8), ("sep", 9), ("oct", 10), ("nov", 11), ("dec", 12)]

/-- `%b`: an abbreviated month name, case-insensitively. -/
def pMonName (l : List Char) : Option (Nat × List Char) :=
  (monthAbbrevs.filterMap fun mn =>
      match matchesCI mn.1.data l with
      | some rest => some (mn.2, rest)
      | none => none).head?

/-- `%z`: `Z` (UTC) or `[+-]\d\d:?\d\d`; CPython also accepts a seconds
component, never produced by the sources modelled here. An offset of a day
or more makes `timezone` raise, failing the format. -/
def pTz (l : List Char) : Option (Option Int × List Char) :=
  match l with
  | 'Z' :: rest => some (some 0, rest)
  | sign :: a :: rest =>
    if sign == '+' || sign == '-' then
      match rest with
      | b :: ':' :: c :: d :: rest' =>
        if a.isDigit && b.isDigit && c.isDigit && d.isDigit then
          let m : Nat := (10 * digitVal a + digitVal b) * 60 + 10 * digitVal c + digitVal d
          if m < 24 * 60 then
            some (some (if sign == '-' then -(m : Int) else (m : Int)), rest')
          else none
        else none
      | b :: c :: d :: rest' =>
        if a.isDigit && b.isDigit && c.isDigit && d.isDigit then
          let m : Nat := (10 * digitVal a + digitVal b) * 60 + 10 * digitVal c + digitVal d
          if m < 24 * 60 then
            some (some (if sign == '-' then -(m : Int) else (m : Int)), rest')
          else none
        else none
      | _ => none
    else none
  | _ => none

def pLit (c : Char) : List Char → Option (Unit × List Char)
  | x :: rest => if x == c then some ((), rest) else none
  | [] => none

def isLeapYear (y : Nat) : Bool := y % 4 == 0 && (y % 100 != 0 || y % 400 == 0)

def daysInMonth (y m : Nat) : Nat :=
  if m == 2 then (if isLeapYear y then 29 else 28)
  else if m == 4 || m == 6 || m == 9 || m == 11 then 30
  else 31

/-- `datetime(...)` construction: range validation (this is where e.g.
`2024-02-31` or second `61` raises `ValueError`). -/
def mkPyDateTime (y mo d h mi s f : Nat) (tz : Option Int) : Option PyDateTime :=
  if 1 ≤ y && y ≤ 9999 && 1 ≤ mo && mo ≤ 12 && 1 ≤ d && d ≤ daysInMonth y mo
      && h ≤ 23 && mi ≤ 59 && s ≤ 59 then
    some ⟨y, mo, d, h, mi, s, f, tz⟩
  else none

/-- `"%Y-%m-%d"` (a full match is required: trailing input fails). -/
def parseFmtDate (l : List Char) : Option PyDateTime := do
  let (y, l) ← pY l
  let (_, l) ← pLit '-' l
  let (mo, l) ← pMon l
  let (_, l) ← pLit '-' l
  let (d, l) ← pDay l
  if l.isEmpty then mkPyDateTime y mo d 0 0 0 0 none else none

def pDateTimeCore (l : List Char) : Option ((Nat × Nat × Nat × Nat × Nat × Nat) × List Char) := do
  let (y, l) ← pY l
  let (_, l) ← pLit '-' l
  let (mo, l) ← pMon l
  let (_, l) ← pLit '-' l
  let (d, l) ← pDay l
  let (_, l) ← pLit 'T' l
  let (h, l) ← pHour l
  let (_, l) ← pLit ':' l
  let (mi, l) ← pMin l
  let (_, l) ← pLit ':' l
  let (s, l) ← pSec l
  pure ((y, mo, d, h, mi, s), l)

/-- `"%Y-%m-%dT%H:%M:%S%z"`. -/
def parseFmtIsoTz (l : List Char) : Option PyDateTime := do
  let ((y, mo, d, h, mi, s), l) ← pDateTimeCore l
  let (tz, l) ← pTz l
  if l.isEmpty then mkPyDateTime y mo d h mi s 0 tz else none

/-- `"%Y-%m-%dT%H:%M:%SZ"` (literal `Z`). -/
def parseFmtIsoZ (l : List Char) : Option PyDateTime := do
  let ((y, mo, d, h, mi, s), l) ← pDateTimeCore l
  let (_, l) ← pLit 'Z' l
  if l.isEmpty then mkPyDateTime y mo d h mi s 0 none else none

/-- `"%d %b %Y"`. -/
def parseFmtDMonY (l : List Char) : Option PyDateTime := do
  let (d, l) ← pDay l
  let (_, l) ← pLit ' ' l
  let (mo, l) ← pMonName l
  let (_, l) ← pLit ' ' l
  let (y, l) ← pY l
  if l.isEmpty then mkPyDateTime y mo d 0 0 0 0 none else none

/-- `"%b %d, %Y"`. -/
def parseFmtMonDY (l : List Char) : Option PyDateTime := do
  let (mo, l) ← pMonName l
  let (_, l) ← pLit ' ' l
  let (d, l) ← pDay l
  let (_, l) ← pLit ',' l
  let (_, l) ← pLit ' ' l
  let (y, l) ← pY l
  if l.isEmpty then mkPyDateTime y mo d 0 0 0 0 none else none

/-- `"%Y-%m-%dT%H:%M:%S.%fZ"`. -/
def parseFmtIsoFracZ (l : List Char) : Option PyDateTime := do
  let ((y, mo, d, h, mi, s), l) ← pDateTimeCore l
  let (_, l) ← pLit '.' l
  let (f, l) ← pFrac l
  let (_, l) ← pLit 'Z' l
  if l.isEmpty then mkPyDateTime y mo d h mi s f none else none

/-- `"%Y-%m-%dT%H:%M:%S.%f%z"`. -/
def parseFmtIsoFracTz (l : List Char) : Option PyDateTime := do
  let ((y, mo, d, h, mi, s), l) ← pDateTimeCore l
  let (_, l) ← pLit '.' l
  let (f, l) ← pFrac l
  let (tz, l) ← pTz l
  if l.isEmpty then mkPyDateTime y mo d h mi s f tz else none

/-- The ordered format attempts of `normalize_job`; the first success wins,
no match gives `None`. -/
def parsePosted (s : String) : Option PyDateTime :=
  let l := s.data
  (parseFmtDate l).orElse fun _ =>
  (parseFmtIsoTz l).orElse fun _ =>
  (parseFmtIsoZ l).orElse fun _ =>
  (parseFmtDMonY l).orElse fun _ =>
  (parseFmtMonDY l).orElse fun _ =>
  (parseFmtIsoFracZ l).orElse fun _ =>
  parseFmtIsoFracTz l

def padNum (w n : Nat) : String :=
  let s := toString n
  ⟨List.replicate (w - s.length) '0'⟩ ++ s

/-- `datetime.isoformat()`. -/
def isoformat (d : PyDateTime) : String :=
  padNum 4 d.year ++ "-" ++ padNum 2 d.month ++ "-" ++ padNum 2 d.day ++ "T"
    ++ padNum 2 d.hour ++ ":" ++ padNum 2 d.minute ++ ":" ++ padNum 2 d.second
    ++ (if d.micro ≠ 0 then "." ++ padNum 6 d.micro else "")
    ++ (match d.tzMinutes with
        | none => ""
        | some off =>
          (if off < 0 then "-" else "+")
            ++ padNum 2 (off.natAbs / 60) ++ ":" ++ padNum 2 (off.natAbs % 60))

/-! ## tools/normalize.py -/

def CITIES : List String :=
  ["Mumbai", "Bombay", "Navi Mumbai", "Thane",
   "Bengaluru", "Bangalore",
   "Pune", "Hyderabad", "Chennai", "Kolkata",
   "New Delhi", "Delhi", "NCR", "Gurugram", "Gurgaon", "Noida", "Greater Noida",
   "Ahmedabad", "Vadodara", "Surat", "Indore", "Jaipur", "Nagpur",
   "Mysuru", "Mysore", "Kochi", "Cochin", "Coimbatore",
   "Trivandrum", "Thiruvananthapuram", "Visakhapatnam", "Vizag",
   "Gandhinagar", "Mohali"]

def STATES : List String :=
  ["Maharashtra", "Karnataka", "Telangana", "Tamil Nadu", "Uttar Pradesh",
   "Haryana", "West Bengal", "Delhi", "Gujarat", "Kerala", "Rajasthan",
   "Andhra Pradesh", "Madhya Pradesh", "Punjab", "Odisha", "Bihar"]

def INDIA_PHRASES : List String :=
  ["india", "pan india", "remote - india", "remote—india", "remote/india",
   "remote in india", "across india", "multiple locations - india",
   "multiple locations in india", "anywhere in india"]

/-- `_apply_url_implies_india`: a query-parameter value containing
`"india"` (lowercased), or the URL path containing `India` as a whole word.
(`urlparse` cannot raise on these inputs, so the `except` branch is dead.) -/
def applyUrlImpliesIndia (applyUrl : Option String) : Bool :=
  match applyUrl with
  | none => false
  | some u =>
    if u == "" then false
    else
      (parseQsl (urlQuery u)).any (fun pr => containsSubstr (pyLower pr.2) "india")
        || containsWordCI (urlPath u) "India"

/-- The location-text checks of `india_location_ok`, applied to
`s = loc.strip()` (with `sl = s.lower()`), in source order. -/
def indiaLocChecks (s : String) : Bool :=
  INDIA_PHRASES.any (fun phrase => containsSubstr (pyLower s) phrase)
    || pyStartsWith (pyLower s) "in-"
    || containsWordCI s "IN"
    || containsWordCI s "IND"
    || (CITIES ++ STATES).any (fun w => containsWordCI s w)

/-- `india_location_ok(loc, apply_url)`: `if loc:` is Python truthiness
(`None` and `""` are falsy), then the text checks, then the URL fallback. -/
def india_location_ok (loc : Option String) (applyUrl : Option String := none) : Bool :=
  let locHit :=
    match loc with
    | none => false
    | some l => if l == "" then false else indiaLocChecks (pyStrip l)
  if locHit then true else applyUrlImpliesIndia applyUrl

/-- The dict `normalize_job` returns as its record (it carries exactly
these keys; in particular no experience-range keys, so a later
`rec.get("min_exp")` / `rec.get("max_exp")` yields `None` and
`rec.get("remote", False)` yields `False`). -/
structure NormRecord where
  company_id : Nat
  title : Option String
  apply_url : Option String
  team : Option String
  location_city : Option String
  location_country : Option String
  description : Option String
  req_id : Option String
  posted_at : Option String
  canonical_key : Option String
deriving DecidableEq, Repr

def stripOrNone (s : Option String) : Option String :=
  let t := pyStrip (s.getD "")
  if t == "" then none else some t

/-- `normalize_job(company_id, title, apply_url, location, description,
req_id, posted_at)` returning `(canonical_key, record)`. -/
def normalize_job (companyId : Nat) (title applyUrl location description reqId postedAt : Option String) :
    String × NormRecord :=
  let t := pyStrip (title.getD "")
  let loc := stripOrNone location
  let req := stripOrNone reqId
  let canonical := pyStrip (pyLower (t ++ "::" ++ loc.getD "" ++ "::" ++ req.getD ""))
  let posted :=
    match postedAt with
    | none => none
    | some p => if p == "" then none else parsePosted p
  let record : NormRecord :=
    { company_id := companyId
      title := if t == "" then none else some (pyTake 255 t)
      apply_url := applyUrl
      team := none
      location_city := loc
      location_country := if india_location_ok loc applyUrl then some "India" else none
      description := match description with
        | none => none
        | some d => if d == "" then none else some d
      req_id := req
      posted_at := posted.map isoformat
      canonical_key := if canonical == "" then none else some (pyTake 255 canonical) }
  (canonical, record)

/-! ## tools/scoring.py -/

def SKILL_TOKENS : List String :=
  ["python", "pandas", "numpy", "scikit", "sklearn", "pytorch", "tensorflow", "sql",
   "pyspark", "spark", "aws", "gcp", "azure", "airflow", "kafka", "hive", "time series",
   "feature engineering", "nlp", "llm", "xgboost", "catboost", "statistics",
   "probability", "regression", "classification", "clustering"]

/-- The `TITLE_WEIGHTS` regex table over the lowered title `t`:
`\bquant(itative)?\b` is whole-word `quant` or `quantitative`; patterns
without `\b` are plain substring tests; `risk (analytics|model|management)`
expands to its three literal alternatives. -/
def titleWeightHits (t : String) : List (Bool × Int) :=
  [(containsWordCI t "quant" || containsWordCI t "quantitative", 25),
   (containsSubstr t "machine learning" || containsSubstr t "ml engineer", 22),
   (containsWordCI t "data scientist", 20),
   (containsWordCI t "data engineer" || containsSubstr t "data platform", 18),
   (containsSubstr t "risk analytics" || containsSubstr t "risk model"
      || containsSubstr t "risk management" || containsSubstr t "model validation"
      || containsSubstr t "model risk", 16),
   (containsSubstr t "analytics" || containsSubstr t "business intelligence"
      || containsSubstr t "bi ", 12)]

/-- `_match_weight`. -/
def matchWeight (title : Option String) : Int :=
  let t := pyLower (title.getD "")
  let s := (titleWeightHits t).foldl (fun acc hw => if hw.1 then max acc hw.2 else acc) 0
  min s 25

/-- Floor of the base-2 logarithm (0 at 0), by structural recursion on a
fuel bound so the kernel can evaluate it. -/
def natLog2Aux : Nat → Nat → Nat
  | 0, _ => 0
  | fuel + 1, n => if 2 ≤ n then natLog2Aux fuel (n / 2) + 1 else 0

def natLog2 (n : Nat) : Nat := natLog2Aux n n

/-- `_skills_score`: `min(30, int(8 * math.log2(1 + hits)))`.
`int(8 * log2 (1 + h))` equals `⌊log2 ((1 + h) ^ 8)⌋` exactly: the float
`8 * log2 (1 + h)` is more than 0.04 away from every integer for each of
the at most 26 possible hit counts apart from the exact powers of two,
where `log2` is exact. -/
def skillsScore (desc : String) : Int :=
  let d := pyLower desc
  let hits := (SKILL_TOKENS.filter (fun s => containsSubstr d s)).length
  min 30 (natLog2 ((1 + hits) ^ 8) : Int)

/-- `_exp_score`. -/
def expScore (minExp maxExp : Option Int) : Int :=
  match minExp, maxExp with
  | none, none => 6
  | _, _ =>
    let lo := minExp.getD 0
    let hi := maxExp.getD 99
    if lo ≤ 3 ∧ 1 ≤ hi then 10
    else if lo ≤ 4 ∧ 0 ≤ hi then 6
    else 0

/-- `_geo_score`. -/
def geoScore (location : String) (remote : Bool) : Int :=
  if remote then 20
  else if location == "" then 8
  else
    let s := pyLower location
    if ["mumbai", "bengaluru", "bangalore", "hyderabad"].any (fun k => containsSubstr s k) then 18
    else if ["pune", "chennai", "gurugram", "gurgaon", "noida", "india"].any
        (fun k => containsSubstr s k) then 14
    else 4

/-- Date → day number (days since 1970-01-01), for the `date` subtraction
in `_recency_score`; the civil-from-days algorithm, valid for year ≥ 1. -/
def daysFromCivil (y m d : Nat) : Int :=
  let y' := if m ≤ 2 then y - 1 else y
  let era := y' / 400
  let yoe := y' % 400
  let mp := (m + 9) % 12
  let doy := (153 * mp + 2) / 5 + d - 1
  let doe := yoe * 365 + yoe / 4 - yoe / 100 + doy
  ((era * 146097 + doe : Nat) : Int) - 719468

/-- Python `int(x)` on a decimal string (sign and surrounding whitespace;
the underscore digit-grouping Python also accepts never occurs here). -/
def pyIntOfString (s : String) : Option Int :=
  let digitsToNat : List Char → Option Nat := fun ds =>
    if ds.isEmpty || !ds.all Char.isDigit then none
    else some (ds.foldl (fun acc c => acc * 10 + digitVal c) 0)
  match trimList s.data with
  | '+' :: ds => (digitsToNat ds).map Int.ofNat
  | '-' :: ds => (digitsToNat ds).map fun n => -(n : Int)
  | ds => (digitsToNat ds).map Int.ofNat

/-- `_recency_score(posted_at)` with `dt.date.today()` modelled as the day
number `today`: parse `posted_at[:10]` as `y-m-d`, difference in days. -/
def recencyScore (postedAt : Option String) (today : Int) : Int :=
  match postedAt with
  | none => 5
  | some p =>
    if p == "" then 5
    else
      match (pyTake 10 p).splitOn "-" with
      | [ys, ms, ds] =>
        match pyIntOfString ys, pyIntOfString ms, pyIntOfString ds with
        | some y, some m, some d =>
          -- `dt.date(y, m, d)` raises outside these ranges → score 5
          if 1 ≤ y ∧ y ≤ 9999 ∧ 1 ≤ m ∧ m ≤ 12 ∧ 1 ≤ d ∧ d ≤ daysInMonth y.toNat m.toNat then
            let days := today - daysFromCivil y.toNat m.toNat d.toNat
            if days ≤ 7 then 10
            else if days ≤ 14 then 8
            else if days ≤ 30 then 6
            else 2
          else 5
        | _, _, _ => 5
      | _ => 5

def SENIOR_KEYWORDS : List String :=
  ["manager", "lead", "vp", "director", "principal", "head", "senior"]

/-- `_seniority_penalty`. -/
def seniorityPenalty (title : Option String) : Int :=
  let t := pyLower (title.getD "")
  if SENIOR_KEYWORDS.any (fun x => containsSubstr t x) then 8
  else if containsSubstr t "intern" || containsSubstr t "trainee" then 12
  else 0

/-- The job dict handed to `score_job` (a stored row joined with its
company's `comp_gate_status`). -/
structure ScoreInput where
  title : Option String
  description : Option String
  location_city : Option String
  remote : Bool
  min_exp : Option Int
  max_exp : Option Int
  posted_at : Option String
  comp_gate_status : Option String
deriving DecidableEq, Repr

/-- `score_job(job)` returning `(score, ctc_predicted_pass)`; `today` is
the day number of `dt.date.today()`. -/
def score_job (job : ScoreInput) (today : Int) : Int × Bool :=
  let s := matchWeight job.title
    + skillsScore (job.description.getD "")
    + expScore job.min_exp job.max_exp
    + geoScore (job.location_city.getD "") job.remote
    + recencyScore job.posted_at today
    - seniorityPenalty job.title
  let compStatus :=
    match job.comp_gate_status with
    | some st => if st == "" then "probation" else st
    | none => "probation"
  let ctc := compStatus == "pass" && !containsSubstr (pyLower (job.title.getD "")) "intern"
  (max 0 (min 100 s), ctc)

/-! ## database/local_db.py — the `jobs` table and `upsert_jobs`

The table is modelled as a list of rows in insertion order; the
`UNIQUE(company_id, canonical_key)` constraint follows SQLite semantics
(`NULL` keys never conflict).  `CURRENT_TIMESTAMP` is supplied as the
`now` argument.  The SQLite driver itself is assumed not to fail, so the
per-row `except` in `upsert_jobs` never fires and each executed statement
increments the returned count. -/

structure JobRow where
  company_id : Nat
  title : Option String
  apply_url : Option String
  team : Option String
  location_city : Option String
  location_country : Option String
  description : Option String
  req_id : Option String
  posted_at : Option String
  canonical_key : Option String
  remote : Bool
  min_exp : Option Int
  max_exp : Option Int
  relevance_score : Option Int
  ctc_predicted_pass : Option Bool
  first_seen_at : Nat
  updated_at : Nat
deriving DecidableEq, Repr

/-- The in-batch de-duplication key of `upsert_jobs`. -/
def dedupKey (rec : NormRecord) : String × String × String × String :=
  (pyLower (pyStrip (rec.req_id.getD "")),
   pyLower (pyStrip (rec.apply_url.getD "")),
   pyLower (pyStrip (rec.title.getD "")),
   pyLower (pyStrip (rec.location_city.getD "")))

def dedupRecs : List NormRecord → List (String × String × String × String) → List NormRecord
  | [], _ => []
  | r :: rest, seen =>
    let k := dedupKey r
    if seen.contains k then dedupRecs rest seen
    else r :: dedupRecs rest (k :: seen)

/-- The freshly inserted row: `remote`/`min_exp`/`max_exp` come from
`rec.get(...)` on a dict without those keys (`False`/`None`/`None`); the
score columns take their SQL defaults (`NULL`); both timestamps are
`CURRENT_TIMESTAMP`. -/
def newRow (rec : NormRecord) (now : Nat) : JobRow :=
  { company_id := rec.company_id
    title := rec.title
    apply_url := rec.apply_url
    team := rec.team
    location_city := rec.location_city
    location_country := rec.location_country
    description := rec.description
    req_id := rec.req_id
    posted_at := rec.posted_at
    canonical_key := rec.canonical_key
    remote := false
    min_exp := none
    max_exp := none
    relevance_score := none
    ctc_predicted_pass := none
    first_seen_at := now
    updated_at := now }

/-- The `ON CONFLICT ... DO UPDATE SET` assignment list. -/
def updateRow (r : JobRow) (rec : NormRecord) (now : Nat) : JobRow :=
  { r with
    title := rec.title
    apply_url := rec.apply_url
    location_city := rec.location_city
    location_country := rec.location_country
    description := rec.description
    posted_at := rec.posted_at
    updated_at := now }

/-- Whether an incoming record conflicts with a stored row on
`UNIQUE(company_id, canonical_key)`; SQLite treats `NULL` keys as always
distinct. -/
def conflictsWith (r : JobRow) (rec : NormRecord) : Bool :=
  match rec.canonical_key, r.canonical_key with
  | some a, some b => rec.company_id == r.company_id && a == b
  | _, _ => false

/-- One `INSERT ... ON CONFLICT DO UPDATE` against the table. -/
def upsertRow (rec : NormRecord) (now : Nat) : List JobRow → List JobRow
  | [] => [newRow rec now]
  | r :: rest =>
    if conflictsWith r rec then updateRow r rec now :: rest
    else r :: upsertRow rec now rest

/-- `upsert_jobs(company_id, rows)` → `(count, table')`. -/
def upsert_jobs (companyId : Nat) (rows : List NormRecord) (now : Nat) (table : List JobRow) :
    Nat × List JobRow :=
  if rows.isEmpty then (0, table)
  else
    let cleaned := (dedupRecs rows []).map fun r => { r with company_id := companyId }
    if cleaned.isEmpty then (0, table)
    else (cleaned.length, cleaned.foldl (fun t r => upsertRow r now t) table)

/-! ## connectors/workday_cxs.py — `fetch`

The HTTP transport is a parameter `net`, giving for page `i` (requested
with `offset = i * limit`) either the raised `requests` exception or the
response's status, whether `"jobPostings"` occurs in its text, and the
parsed `jobPostings` list.  A JSON-decode failure is also an `error`: its
`except` branch behaves identically to the network one (print and break).
The fetch result is wrapped in `Except` to model Python exception
propagation to the caller; every `except` branch of the source returns
normally, so every branch below is `.ok`. -/

structure RawJob where
  title : Option String
  location : Option String
  detail_url : Option String
  description : Option String
  req_id : Option String
  posted : Option String
deriving DecidableEq, Repr

inductive WdBullet where
  | absent
  | dict (jobNumber : Option String)
  | list (fields : List String)
deriving DecidableEq, Repr

structure WdPosting where
  title : Option String
  locationsText : Option String
  location : Option String
  externalPath : Option String
  externalUrl : Option String
  postedOn : Option String
  bulletFields : WdBullet
deriving DecidableEq, Repr

structure WdResp where
  status : Nat
  hasJobPostingsToken : Bool
  posts : List WdPosting
deriving DecidableEq, Repr

/-- Python `a or b` for an optional string: `b` when `a` is `None` or empty. -/
def pyOrStr (a : Option String) (b : String) : String :=
  match a with
  | some s => if s == "" then b else s
  | none => b

/-- `_extract_req_id`. -/
def extractReqId (p : WdPosting) : Option String :=
  let fallback :=
    match p.externalPath with
    | some path => if path == "" then none else some path
    | none => none
  match p.bulletFields with
  | .dict jobNumber =>
    match jobNumber with
    | some r => if r == "" then fallback else some r
    | none => fallback
  | .list fields =>
    match fields.filter (fun f => pyStrip f != "") with
    | f :: _ => some (pyStrip f)
    | [] => fallback
  | .absent => fallback

/-- `urljoin(base, url)` for a root-relative `url` (leading `/`):
scheme and netloc of `base` followed by `url`. -/
def urljoinRooted (base url : String) : String :=
  let l := base.data
  let pre := l.takeWhile (· ≠ ':')
  let (schemePart, rest) :=
    if pre.length < l.length && validScheme pre then (pre ++ [':'], l.drop (pre.length + 1))
    else (([] : List Char), l)
  match rest with
  | '/' :: '/' :: tail =>
    let nl := tail.takeWhile (fun c => c ≠ '/' && c ≠ '?')
    ⟨schemePart ++ '/' :: '/' :: nl⟩ ++ url
  | _ => url

/-- The per-posting mapping of the Workday fetch loop body. -/
def wdToRawJob (base : String) (p : WdPosting) : RawJob :=
  let loc := pyOrStr p.locationsText (pyOrStr p.location "")
  let path := pyOrStr p.externalPath (pyOrStr p.externalUrl "")
  let detail :=
    if pyStartsWith path "/" then urljoinRooted base path
    else if path == "" then base else path
  { title := p.title
    location := some loc
    detail_url := some detail
    description := none
    req_id := extractReqId p
    posted := p.postedOn }

/-- The `for page in range(max_pages)` loop; returns the accumulated jobs
and the number of page requests issued. -/
def wdFetchAux (net : Nat → Except String WdResp) (base : String) (limit : Nat) :
    Nat → Nat → List RawJob → Nat → Except String (List RawJob × Nat)
  | 0, _, acc, reqs => Except.ok (acc, reqs)
  | fuel + 1, page, acc, reqs =>
    match net page with
    | Except.error _ => Except.ok (acc, reqs + 1)  -- `except`: print and break
    | Except.ok r =>
      if r.status ≠ 200 then Except.ok (acc, reqs + 1)
      else if !r.hasJobPostingsToken then Except.ok (acc, reqs + 1)
      else if r.posts.isEmpty then Except.ok (acc, reqs + 1)
      else
        let acc' := acc ++ r.posts.map (wdToRawJob base)
        if r.posts.length < limit then Except.ok (acc', reqs + 1)
        else wdFetchAux net base limit fuel (page + 1) acc' (reqs + 1)

/-- `fetch(endpoint_url, search_text, limit, max_pages, india_only)` of
connectors/workday_cxs.py (the request body built by `_payload` is
determined by `searchText`, `limit`, `offset = page * limit` and
`indiaOnly`; `net` abstracts the transport over the page number). -/
def wd_fetch (net : Nat → Except String WdResp) (endpointUrl : String) (limit maxPages : Nat) :
    Except String (List RawJob × Nat) :=
  wdFetchAux net (pyRstripSlash endpointUrl) limit maxPages 0 [] 0

/-! ## tools/ingest_jobs.py — `run_from_sources_csv`

One `sources.csv` row per source; the connector call the row dispatches to
is a network effect and is modelled by the row's `fetchOutcome` (`error` =
the call raised).  The local SQLite store is in the orchestrator state;
its own writes are assumed not to fail (so the `except` arms around
`upsert_jobs_raw` / `upsert_jobs` never fire), while `time.sleep` and all
printing are dropped. -/

/-- `_truthy(v, default)`. -/
def pyTruthy (v : Option String) (dflt : Bool) : Bool :=
  match v with
  | none => dflt
  | some s =>
    if s == "" then dflt
    else ["true", "1", "yes", "y"].contains (pyLower (pyStrip s))

/-- The keyword list of `_filter_india_jobs`. -/
def INGEST_INDIA_KEYWORDS : List String :=
  ["india", "bengaluru", "bangalore", "mumbai", "hyderabad",
   "pune", "chennai", "gurgaon", "gurugram", "noida", "delhi",
   "kolkata", "ahmedabad", "remote - india", "in-"]

/-- `str(job.get('location', ''))`: the dict always carries the key, so a
`None` value prints as `"None"`. -/
def locAsPyStr (loc : Option String) : String :=
  match loc with
  | some s => s
  | none => "None"

/-- `_filter_india_jobs(jobs, india_only)`. -/
def filterIndiaJobs (jobs : List RawJob) (indiaOnly : Bool) : List RawJob :=
  if !indiaOnly then jobs
  else jobs.filter fun job =>
    INGEST_INDIA_KEYWORDS.any fun kw => containsSubstr (pyLower (locAsPyStr job.location)) kw

/-- The connector kinds `run_from_sources_csv` dispatches on; any other
kind prints "no handler" and is skipped. -/
def handledKinds : List String :=
  ["greenhouse", "workday_cxs", "oracle_cx", "citi_custom", "taleo_tgnewui",
   "brassring_go", "barclays_search", "bnpp_group"]

/-- One row of config/sources.csv together with the outcome of the
connector call it would dispatch (the network effect as data). -/
structure SourceRow where
  company : String
  activeRaw : Option String
  kind : String
  endpointUrl : String
  /-- `params.get("india_only", True)` after `bool(...)`. -/
  indiaOnly : Bool
  fetchOutcome : Except String (List RawJob)
deriving Repr

structure AuditRow where
  company_id : Nat
  source_id : Option Nat
  page_url : String
  payloadCount : Nat
deriving DecidableEq, Repr

structure OrchState where
  /-- active-company name → id map (`_company_map`, auto-extended). -/
  companies : List (String × Nat)
  nextId : Nat
  audit : List AuditRow
  jobs : List JobRow
  total : Nat
deriving Repr

/-- `_ensure_company`: look up, else auto-create with a fresh id. -/
def ensureCompany (name : String) (companies : List (String × Nat)) (nextId : Nat) :
    Nat × List (String × Nat) × Nat :=
  match companies.lookup name with
  | some id => (id, companies, nextId)
  | none => (nextId, companies ++ [(name, nextId)], nextId + 1)

/-- The per-job filter+normalize step of the ingestion loop: non-greenhouse
rows are gated by `india_location_ok(loc)` (called without a URL). -/
def normalizeForRow (kind : String) (cid : Nat) (d : RawJob) : Option NormRecord :=
  let loc := stripOrNone d.location
  if kind ≠ "greenhouse" && !india_location_ok loc then none
  else some (normalize_job cid d.title d.detail_url loc d.description d.req_id d.posted).2

/-- The body of the `for row in reader` loop of `run_from_sources_csv`.
When the connector call raises, the `except` prints and `continue`s — in
particular no `jobs_raw` audit row is written for that source. -/
def processRow (now : Nat) (s : OrchState) (row : SourceRow) : OrchState :=
  let company := pyStrip row.company
  if company == "" || pyStartsWith company "#" then s
  else if !pyTruthy row.activeRaw true then s
  else
    let ec := ensureCompany company s.companies s.nextId
    let cid := ec.1
    let s1 : OrchState := { s with companies := ec.2.1, nextId := ec.2.2 }
    let kind := pyStrip row.kind
    if !handledKinds.contains kind then s1
    else
      match row.fetchOutcome with
      | Except.error _ => s1
      | Except.ok fetchedRaw =>
        let fetched :=
          if kind == "greenhouse" then filterIndiaJobs fetchedRaw row.indiaOnly else fetchedRaw
        let recs := fetched.filterMap (normalizeForRow kind cid)
        let s2 : OrchState :=
          { s1 with
            audit := s1.audit ++ [⟨cid, none, pyStrip row.endpointUrl, fetched.length⟩] }
        let up := upsert_jobs cid recs now s2.jobs
        { s2 with jobs := up.2, total := s2.total + up.1 }

/-- `run_from_sources_csv` over a source list, from a given store state. -/
def runRows (now : Nat) (rows : List SourceRow) (s : OrchState) : OrchState :=
  rows.foldl (processRow now) s

def initOrchState : OrchState := ⟨[], 1, [], [], 0⟩

/-! ## Spec-side model for the claimed experience extraction -/

def digitsValNat (ds : List Char) : Nat :=
  ds.foldl (fun acc c => acc * 10 + digitVal c) 0

def expUnitHere (l : List Char) : Bool :=
  (matchesCI "years".data l).isSome || (matchesCI "yrs".data l).isSome

/-- Modelled from the spec: `normalize.py` contains no experience-range
extraction, so the claimed behaviour — scan title+description for numeric
"N years/yrs" tokens — is reconstructed here from the spec's words: every
maximal digit run followed (after optional spaces) by `years`/`yrs`,
case-insensitively, is a match.  Structural recursion on a fuel bound
(each step drops at least one character). -/
def specExpScanAux : Nat → List Char → List Nat
  | 0, _ => []
  | fuel + 1, l =>
    match l with
    | [] => []
    | c :: rest =>
      if c.isDigit then
        let ds := c :: rest.takeWhile Char.isDigit
        let tail := rest.dropWhile Char.isDigit
        let n := digitsValNat ds
        if expUnitHere (tail.dropWhile (· == ' ')) then n :: specExpScanAux fuel tail
        else specExpScanAux fuel tail
      else specExpScanAux fuel rest

def specExpScan (l : List Char) : List Nat := specExpScanAux l.length l

/-- Modelled from the spec: `(min(matches), max(matches))` over the
"N years/yrs" tokens of title+description, `(None, None)` when there is
no match. -/
def specExpRange (title desc : String) : Option Int × Option Int :=
  match specExpScan (pyLower (title ++ " " ++ desc)).data with
  | [] => (none, none)
  | h :: t => (some ((t.foldl Nat.min h : Nat) : Int), some ((t.foldl Nat.max h : Nat) : Int))

/-! ## Concrete fixtures used by the witnesses and counterexamples -/

/-- Scenario 3 of the spec: a senior title in Mumbai. -/
def vpRiskJob : ScoreInput :=
  ⟨some "VP, Risk", none, some "Mumbai", false, none, none, none, none⟩

/-- The same job with a non-senior title. -/
def analystRiskJob : ScoreInput :=
  ⟨some "Analyst, Risk", none, some "Mumbai", false, none, none, none, none⟩

def wdPostFix : WdPosting :=
  ⟨some "Data Engineer", some "Mumbai, IN", none, some "/job/1", none, none, .absent⟩

/-- A transport serving a full page of 50 postings and then a 12-item page
(scenario 5 of the spec). -/
def netC7 : Nat → Except String WdResp := fun p =>
  if p = 0 then Except.ok ⟨200, true, List.replicate 50 wdPostFix⟩
  else Except.ok ⟨200, true, List.replicate 12 wdPostFix⟩

/-- A transport whose first page request raises a timeout. -/
def netTimeout : Nat → Except String WdResp := fun _ => Except.error "ConnectTimeout"

/-- A source whose connector call raises. -/
def rowErrC3 : SourceRow :=
  ⟨"AlphaBank", none, "workday_cxs", "https://a/jobs", true, Except.error "ConnectionError"⟩

def gJobC3 : RawJob :=
  ⟨some "Data Engineer", some "Bengaluru, India", some "https://g/j/1", none, some "123", none⟩

/-- A source whose connector call succeeds with one India job. -/
def rowOkC3 : SourceRow :=
  ⟨"BetaBank", none, "greenhouse", "https://g/jobs", true, Except.ok [gJobC3]⟩

/-- Scenario-1 record: `{title: "Data Engineer", location: "Bengaluru,
India", req_id: "123"}` normalized for company 1. -/
def scenario1Rec : NormRecord :=
  (normalize_job 1 (some "Data Engineer") (some "https://x/1") (some "Bengaluru, India")
    none (some "123") none).2

/-- A record whose title and description carry "N years" tokens. -/
def yearsRec : NormRecord :=
  (normalize_job 7 (some "Data Engineer") (some "https://x/1") (some "Mumbai")
    (some "Requires 3 years to 5 years of experience") (some "R1") none).2

/-! ## Predicates on transport pages (for the paged-connector claims) -/

/-- Page request answered with HTTP 200, the `jobPostings` marker, and
exactly `limit` postings (a full page, so the loop continues). -/
def wdFullPage (r : Except String WdResp) (limit : Nat) : Prop :=
  ∃ resp, r = Except.ok resp ∧ resp.status = 200 ∧ resp.hasJobPostingsToken = true
    ∧ resp.posts.length = limit

/-- Any page outcome on which the fetch loop breaks: a raised request
error, a non-200 status, a response without the marker, or a page with
fewer postings than the page size. -/
def wdPageStops (r : Except String WdResp) (limit : Nat) : Prop :=
  (∃ e, r = Except.error e)
    ∨ ∃ resp, r = Except.ok resp
        ∧ (resp.status ≠ 200 ∨ resp.hasJobPostingsToken = false ∨ resp.posts.length < limit)

/-! ## Helper lemmas -/

theorem pyLower_append (a b : String) : pyLower (a ++ b) = pyLower a ++ pyLower b := by
  cases a with
  | mk la =>
    cases b with
    | mk lb =>
      show String.mk ((la ++ lb).map Char.toLower)
        = String.mk (la.map Char.toLower ++ lb.map Char.toLower)
      rw [List.map_append]

theorem stripOrNone_getD (x : Option String) : (stripOrNone x).getD "" = pyStrip (x.getD "") := by
  unfold stripOrNone
  by_cases h : pyStrip (x.getD "") = ""
  · simp [h]
  · simp [h]

/-! ## Claims -/

/-- C5.  Score bounds: for every job record and every current day,
`score_job` returns a score with `0 ≤ score ≤ 100` (the sum of the
component scores is clamped by `max(0, min(100, s))`). -/
theorem score_job_bounds (job : ScoreInput) (today : Int) :
    0 ≤ (score_job job today).1 ∧ (score_job job today).1 ≤ 100 := by
  unfold score_job
  dsimp only
  exact ⟨le_max_left _ _, max_le (by norm_num) (min_le_left _ _)⟩

/-- C9.  Seniority penalty: exactly 8 when the lowered title contains one
of the manager/lead/director-class keywords (`manager`, `lead`, `vp`,
`director`, `principal`, `head`, `senior`); exactly 12 for intern/trainee
titles outside that class (the senior check has precedence in the source);
0 otherwise.  Moreover the concrete senior title "VP, Risk" scores
strictly lower than the otherwise-identical non-senior "Analyst, Risk". -/
theorem seniority_penalty_values :
    (∀ title : Option String,
      (SENIOR_KEYWORDS.any (fun x => containsSubstr (pyLower (title.getD "")) x) = true →
        seniorityPenalty title = 8)
      ∧ (SENIOR_KEYWORDS.any (fun x => containsSubstr (pyLower (title.getD "")) x) = false →
          (containsSubstr (pyLower (title.getD "")) "intern"
            || containsSubstr (pyLower (title.getD "")) "trainee") = true →
          seniorityPenalty title = 12)
      ∧ (SENIOR_KEYWORDS.any (fun x => containsSubstr (pyLower (title.getD "")) x) = false →
          (containsSubstr (pyLower (title.getD "")) "intern"
            || containsSubstr (pyLower (title.getD "")) "trainee") = false →
          seniorityPenalty title = 0))
    ∧ (score_job vpRiskJob 0).1 < (score_job analystRiskJob 0).1 := by
  constructor
  · intro title
    refine ⟨fun h1 => ?_, fun h1 h2 => ?_, fun h1 h2 => ?_⟩
    · simp [seniorityPenalty, h1]
    · simp [seniorityPenalty, h1, h2]
    · simp [seniorityPenalty, h1, h2]
  · decide

/-- C9 witness: the penalty at concrete senior, intern and plain titles. -/
theorem seniority_penalty_values_witness :
    seniorityPenalty (some "VP, Risk") = 8
    ∧ seniorityPenalty (some "ML Intern") = 12
    ∧ seniorityPenalty (some "Data Analyst") = 0 :=
  ⟨(seniority_penalty_values.1 (some "VP, Risk")).1 (by decide),
   (seniority_penalty_values.1 (some "ML Intern")).2.1 (by decide) (by decide),
   (seniority_penalty_values.1 (some "Data Analyst")).2.2 (by decide) (by decide)⟩

/-- C10.  The country-code check of the region gate is case-insensitive
whole-word matching (`\bIN\b` with `re.I`), so any location text that
contains the English word "in" as a standalone word is admitted as India
evidence, whatever the rest of the text or the URL says. -/
theorem word_in_admits_india (l : String) (url : Option String)
    (h : containsWordCI (pyStrip l) "IN" = true) :
    india_location_ok (some l) url = true := by
  by_cases hl : l = ""
  · subst hl
    exact absurd h (by decide)
  · have hb : (l == "") = false := beq_eq_false_iff_ne.mpr hl
    unfold india_location_ok
    simp [hb, indiaLocChecks, h]

/-- C10 witness: "Remote in Singapore" is admitted, even with a
Singapore-only URL. -/
theorem word_in_admits_india_witness :
    containsWordCI (pyStrip "Remote in Singapore") "IN" = true
    ∧ india_location_ok (some "Remote in Singapore")
        (some "https://x.com/jobs?country=Singapore") = true :=
  ⟨by decide, word_in_admits_india "Remote in Singapore" _ (by decide)⟩

theorem upsertRow_no_conflict (rec : NormRecord) (now : Nat) :
    ∀ t : List JobRow, (∀ r ∈ t, conflictsWith r rec = false) →
      upsertRow rec now t = t ++ [newRow rec now] := by
  intro t
  induction t with
  | nil => intro _; rfl
  | cons r rest ih =>
    intro h
    have hr := h r (List.mem_cons_self _ _)
    simp [upsertRow, hr, ih (fun x hx => h x (List.mem_cons_of_mem _ hx))]

theorem upsertRow_update_last (rec : NormRecord) (now : Nat) (row : JobRow) :
    ∀ t : List JobRow, (∀ r ∈ t, conflictsWith r rec = false) →
      conflictsWith row rec = true →
      upsertRow rec now (t ++ [row]) = t ++ [updateRow row rec now] := by
  intro t
  induction t with
  | nil => intro _ hc; simp [upsertRow, hc]
  | cons r rest ih =>
    intro h hc
    have hr := h r (List.mem_cons_self _ _)
    simp [upsertRow, hr, ih (fun x hx => h x (List.mem_cons_of_mem _ hx)) hc]

theorem upsert_jobs_single (cid : Nat) (rec : NormRecord) (now : Nat) (table : List JobRow) :
    upsert_jobs cid [rec] now table
      = (1, upsertRow { rec with company_id := cid } now table) := by
  simp [upsert_jobs, dedupRecs]

/-- C1 counterexample.  Two raw postings with the same non-empty external
requisition id `"123"` whose titles differ only in internal whitespace
("Data  Engineer" vs "Data Engineer") get different canonical keys:
`normalize_job` never prefers the requisition id, it concatenates
lowercased title, location and requisition id. -/
theorem canonical_key_req_id_counterexample :
    (normalize_job 1 (some "Data  Engineer") (some "https://x/1") (some "Bengaluru, India")
        none (some "123") none).1
    ≠ (normalize_job 1 (some "Data Engineer") (some "https://x/1") (some "Bengaluru, India")
        none (some "123") none).1 := by
  decide

/-- C1 (amended).  The canonical key is the lowercased concatenation
`title::location::req_id` of the whitespace-trimmed fields: it is
deterministic and independent of the apply URL, the description, the
posted date and the company id, so two postings with the same requisition
id whose trimmed lowercased titles and locations agree share a canonical
key (the converse does not hold — `::` inside a field can make distinct
title/location pairs collide). -/
theorem canonical_key_from_trimmed_fields
    (cid1 cid2 : Nat) (t1 t2 l1 l2 r u1 u2 d1 d2 p1 p2 : Option String)
    (ht : pyLower (pyStrip (t1.getD "")) = pyLower (pyStrip (t2.getD "")))
    (hl : pyLower (pyStrip (l1.getD "")) = pyLower (pyStrip (l2.getD ""))) :
    (normalize_job cid1 t1 u1 l1 d1 r p1).1 = (normalize_job cid2 t2 u2 l2 d2 r p2).1 := by
  unfold normalize_job
  dsimp only
  refine congrArg pyStrip ?_
  simp only [pyLower_append, stripOrNone_getD]
  rw [ht, hl]

/-- C1 (amended) witness: trailing/leading whitespace in the title and
casing in the location do not change the key, across different URLs. -/
theorem canonical_key_from_trimmed_fields_witness :
    (normalize_job 1 (some " Data Engineer ") (some "https://x/1") (some "Bengaluru, India")
        none (some "123") none).1
    = (normalize_job 2 (some "Data Engineer") (some "https://x/2") (some "bengaluru, india")
        none (some "123") none).1 :=
  canonical_key_from_trimmed_fields 1 2 _ _ _ _ _ _ _ _ _ _ _ (by decide) (by decide)

/-- C2 counterexample.  At a posting whose title+description carry the
tokens "3 years" and "5 years" the claimed extraction yields
`(min, max) = (3, 5)`, but the stored row created from `normalize_job`'s
record has `min_exp = max_exp = NULL`: no experience scan exists in the
canonicalizer. -/
theorem experience_extraction_counterexample :
    specExpRange "Data Engineer" "Requires 3 years to 5 years of experience"
      = (some 3, some 5)
    ∧ ((upsert_jobs 7 [yearsRec] 0 []).2.map fun r => (r.min_exp, r.max_exp))
      = [(none, none)]
    ∧ (some (3 : Int), some (5 : Int)) ≠ ((none : Option Int), (none : Option Int)) := by
  refine ⟨by decide, ?_, by decide⟩
  decide

/-- C2 (amended).  The canonicalizer performs no experience extraction:
whatever the title and description say, storing a normalized record
creates a row whose `min_exp` and `max_exp` are null. -/
theorem stored_experience_range_always_null
    (cid cid2 : Nat) (title applyUrl location description reqId postedAt : Option String)
    (now : Nat) (table : List JobRow)
    (hnc : ∀ r ∈ table,
      conflictsWith r
        { (normalize_job cid title applyUrl location description reqId postedAt).2 with
          company_id := cid2 } = false) :
    ∃ row : JobRow,
      (upsert_jobs cid2 [(normalize_job cid title applyUrl location description reqId postedAt).2]
          now table).2 = table ++ [row]
      ∧ row.min_exp = none ∧ row.max_exp = none := by
  rw [upsert_jobs_single]
  exact ⟨_, upsertRow_no_conflict _ now table hnc, rfl, rfl⟩

/-- C2 (amended) witness: the scenario with explicit "N years" tokens
stores a row with null experience bounds. -/
theorem stored_experience_range_always_null_witness :
    ∃ row : JobRow,
      (upsert_jobs 7 [(normalize_job 7 (some "Data Engineer") (some "https://x/1") (some "Mumbai")
          (some "Requires 3 years to 5 years of experience") (some "R1") none).2] 0 []).2
        = [] ++ [row]
      ∧ row.min_exp = none ∧ row.max_exp = none :=
  stored_experience_range_always_null 7 7 (some "Data Engineer") (some "https://x/1")
    (some "Mumbai") (some "Requires 3 years to 5 years of experience") (some "R1") none 0 []
    (by intro r hr; cases hr)

theorem conflictsWith_newRow (rec : NormRecord) (now : Nat) (k : String)
    (hkey : rec.canonical_key = some k) :
    conflictsWith (newRow rec now) rec = true := by
  simp [conflictsWith, newRow, hkey]

theorem conflictsWith_updateRow (r : JobRow) (rec : NormRecord) (now : Nat)
    (h : conflictsWith r rec = true) :
    conflictsWith (updateRow r rec now) rec = true := by
  unfold conflictsWith updateRow at *
  cases hk : rec.canonical_key with
  | none => rw [hk] at h; cases h
  | some a => rw [hk] at h; simpa using h

/-- C4.  Upserting an identical normalized posting twice in sequence for
the same company: the first call inserts one row with
`first_seen_at = updated_at = t1` and null score columns; the second call
leaves the table equal to the original plus that single row with only
`updated_at` moved to `t2` — `first_seen_at`, `relevance_score` and
`ctc_predicted_pass` (the compensation-gate flag) are untouched, every
pre-existing row is untouched, and exactly one row carries this
`(company_id, canonical_key)` identity. -/
theorem upsert_twice_single_row
    (cid : Nat) (rec : NormRecord) (k : String) (t1 t2 : Nat) (table : List JobRow)
    (hkey : rec.canonical_key = some k)
    (hnc : ∀ r ∈ table, conflictsWith r { rec with company_id := cid } = false) :
    (upsert_jobs cid [rec] t1 table).2 = table ++ [newRow { rec with company_id := cid } t1]
    ∧ (upsert_jobs cid [rec] t2 (upsert_jobs cid [rec] t1 table).2).2
        = table ++ [updateRow (newRow { rec with company_id := cid } t1)
            { rec with company_id := cid } t2]
    ∧ updateRow (newRow { rec with company_id := cid } t1) { rec with company_id := cid } t2
        = { newRow { rec with company_id := cid } t1 with updated_at := t2 }
    ∧ (newRow { rec with company_id := cid } t1).first_seen_at = t1
    ∧ (updateRow (newRow { rec with company_id := cid } t1) { rec with company_id := cid }
        t2).first_seen_at = t1
    ∧ (updateRow (newRow { rec with company_id := cid } t1) { rec with company_id := cid }
        t2).updated_at = t2
    ∧ (updateRow (newRow { rec with company_id := cid } t1) { rec with company_id := cid }
        t2).relevance_score = none
    ∧ (updateRow (newRow { rec with company_id := cid } t1) { rec with company_id := cid }
        t2).ctc_predicted_pass = none
    ∧ ((upsert_jobs cid [rec] t2 (upsert_jobs cid [rec] t1 table).2).2.filter
        (fun r => conflictsWith r { rec with company_id := cid })).length = 1 := by
  have hkey' : ({ rec with company_id := cid } : NormRecord).canonical_key = some k := hkey
  have h1 : (upsert_jobs cid [rec] t1 table).2
      = table ++ [newRow { rec with company_id := cid } t1] := by
    rw [upsert_jobs_single]
    exact upsertRow_no_conflict _ _ _ hnc
  have hconf := conflictsWith_newRow { rec with company_id := cid } t1 k hkey'
  have h2 : (upsert_jobs cid [rec] t2 (upsert_jobs cid [rec] t1 table).2).2
      = table ++ [updateRow (newRow { rec with company_id := cid } t1)
          { rec with company_id := cid } t2] := by
    rw [h1, upsert_jobs_single]
    exact upsertRow_update_last _ _ _ _ hnc hconf
  have hconf2 := conflictsWith_updateRow _ { rec with company_id := cid } t2 hconf
  refine ⟨h1, h2, rfl, rfl, rfl, rfl, rfl, rfl, ?_⟩
  rw [h2, List.filter_append]
  have htab : table.filter (fun r => conflictsWith r { rec with company_id := cid }) = [] :=
    List.filter_eq_nil_iff.mpr (fun r hr => by simp [hnc r hr])
  rw [htab]
  simp [hconf2]

/-- C4 witness: scenario 1/2 of the spec at company 1, times 0 then 1. -/
theorem upsert_twice_single_row_witness :
    (upsert_jobs 1 [scenario1Rec] 1 (upsert_jobs 1 [scenario1Rec] 0 []).2).2
      = [] ++ [updateRow (newRow { scenario1Rec with company_id := 1 } 0)
          { scenario1Rec with company_id := 1 } 1]
    ∧ (updateRow (newRow { scenario1Rec with company_id := 1 } 0)
        { scenario1Rec with company_id := 1 } 1).first_seen_at = 0
    ∧ (updateRow (newRow { scenario1Rec with company_id := 1 } 0)
        { scenario1Rec with company_id := 1 } 1).updated_at = 1
    ∧ (updateRow (newRow { scenario1Rec with company_id := 1 } 0)
        { scenario1Rec with company_id := 1 } 1).relevance_score = none
    ∧ ((upsert_jobs 1 [scenario1Rec] 1 (upsert_jobs 1 [scenario1Rec] 0 []).2).2.filter
        (fun r => conflictsWith r { scenario1Rec with company_id := 1 })).length = 1 := by
  have h := upsert_twice_single_row 1 scenario1Rec "data engineer::bengaluru, india::123" 0 1 []
    (by decide) (by intro r hr; cases hr)
  exact ⟨h.2.1, h.2.2.2.2.1, h.2.2.2.2.2.1, h.2.2.2.2.2.2.1, h.2.2.2.2.2.2.2.2⟩

theorem indiaLocChecks_empty : indiaLocChecks "" = false := by decide

/-- C6.  Region-gate strictness: with absent or whitespace-only location
text and a detail URL none of whose decoded query values contains
`"india"` and whose path does not contain `India` as a word,
`india_location_ok` returns false — there is no default admission. -/
theorem region_gate_strict_reject (loc : Option String) (u : String)
    (hloc : ∀ l, loc = some l → pyStrip l = "")
    (hq : ∀ pr ∈ parseQsl (urlQuery u), containsSubstr (pyLower pr.2) "india" = false)
    (hp : containsWordCI (urlPath u) "India" = false) :
    india_location_ok loc (some u) = false := by
  have hfall : applyUrlImpliesIndia (some u) = false := by
    unfold applyUrlImpliesIndia
    by_cases hu : u = ""
    · simp [hu]
    · have hb : (u == "") = false := beq_eq_false_iff_ne.mpr hu
      simp only [hb, Bool.false_eq_true, if_false, Bool.or_eq_false_iff]
      refine ⟨List.any_eq_false.mpr (fun pr hpr => by simp [hq pr hpr]), hp⟩
  unfold india_location_ok
  cases loc with
  | none => simpa using hfall
  | some l =>
    have hstrip := hloc l rfl
    by_cases hl : l = ""
    · simp only [hl]
      simpa using hfall
    · have hb : (l == "") = false := beq_eq_false_iff_ne.mpr hl
      simp only [hb, Bool.false_eq_true, if_false, hstrip, indiaLocChecks_empty]
      simpa using hfall

/-- C6 witness: scenario 4 of the spec (`location:None`,
`detail_url:"https://x.com/jobs?country=US"`), plus a whitespace-only
location. -/
theorem region_gate_strict_reject_witness :
    india_location_ok none (some "https://x.com/jobs?country=US") = false
    ∧ india_location_ok (some "  ") (some "https://x.com/jobs?country=US") = false :=
  ⟨region_gate_strict_reject none _ (by intro l h; cases h) (by decide) (by decide),
   region_gate_strict_reject (some "  ") _ (by intro l h; cases h; decide)
     (by decide) (by decide)⟩

theorem wdFetchAux_always_ok (net : Nat → Except String WdResp) (base : String) (limit : Nat) :
    ∀ (fuel page : Nat) (acc : List RawJob) (reqs : Nat),
      ∃ out, wdFetchAux net base limit fuel page acc reqs = Except.ok out := by
  intro fuel
  induction fuel with
  | zero => intro page acc reqs; exact ⟨_, rfl⟩
  | succ fuel ih =>
    intro page acc reqs
    unfold wdFetchAux
    cases net page with
    | error e => exact ⟨_, rfl⟩
    | ok r =>
      dsimp only
      by_cases h1 : r.status ≠ 200
      · exact ⟨_, if_pos h1⟩
      · rw [if_neg h1]
        by_cases h2 : (!r.hasJobPostingsToken) = true
        · exact ⟨_, if_pos h2⟩
        · rw [if_neg h2]
          by_cases h3 : r.posts.isEmpty = true
          · exact ⟨_, if_pos h3⟩
          · rw [if_neg h3]
            by_cases h4 : r.posts.length < limit
            · exact ⟨_, if_pos h4⟩
            · rw [if_neg h4]; exact ih _ _ _

theorem wd_fetch_always_ok (net : Nat → Except String WdResp) (endpointUrl : String)
    (limit maxPages : Nat) :
    ∃ out, wd_fetch net endpointUrl limit maxPages = Except.ok out :=
  wdFetchAux_always_ok net (pyRstripSlash endpointUrl) limit maxPages 0 [] 0

theorem wdFetchAux_reqs_le (net : Nat → Except String WdResp) (base : String) (limit : Nat) :
    ∀ (fuel page : Nat) (acc : List RawJob) (reqs : Nat) (jobs : List RawJob) (r : Nat),
      wdFetchAux net base limit fuel page acc reqs = Except.ok (jobs, r) → r ≤ reqs + fuel := by
  intro fuel
  induction fuel with
  | zero =>
    intro page acc reqs jobs r h
    unfold wdFetchAux at h
    cases h
    omega
  | succ fuel ih =>
    intro page acc reqs jobs r h
    unfold wdFetchAux at h
    split at h
    · cases h; omega
    · split at h
      · cases h; omega
      · split at h
        · cases h; omega
        · split at h
          · cases h; omega
          · split at h
            · cases h; omega
            · have := ih (page + 1) _ (reqs + 1) jobs r h
              omega

theorem wdFetchAux_stops_at (net : Nat → Except String WdResp) (base : String) (limit : Nat) :
    ∀ (k fuel page : Nat) (acc : List RawJob) (reqs : Nat),
      k < fuel → 0 < limit →
      (∀ j, j < k → wdFullPage (net (page + j)) limit) →
      wdPageStops (net (page + k)) limit →
      ∃ jobs, wdFetchAux net base limit fuel page acc reqs = Except.ok (jobs, reqs + (k + 1)) := by
  intro k
  induction k with
  | zero =>
    intro fuel page acc reqs hk hlim _ hstop
    obtain ⟨fuel', rfl⟩ : ∃ fuel', fuel = fuel' + 1 := ⟨fuel - 1, by omega⟩
    unfold wdFetchAux
    rw [Nat.add_zero] at hstop
    rcases hstop with ⟨e, he⟩ | ⟨resp, hr, hcond⟩
    · rw [he]; exact ⟨acc, rfl⟩
    · rw [hr]
      dsimp only
      rcases hcond with hs | ht | hlen
      · exact ⟨acc, if_pos hs⟩
      · by_cases hs : resp.status ≠ 200
        · exact ⟨acc, if_pos hs⟩
        · rw [if_neg hs]; exact ⟨acc, if_pos (by simp [ht])⟩
      · by_cases hs : resp.status ≠ 200
        · exact ⟨acc, if_pos hs⟩
        · rw [if_neg hs]
          by_cases ht : (!resp.hasJobPostingsToken) = true
          · exact ⟨acc, if_pos ht⟩
          · rw [if_neg ht]
            by_cases hemp : resp.posts.isEmpty = true
            · exact ⟨acc, if_pos hemp⟩
            · rw [if_neg hemp]; exact ⟨_, if_pos hlen⟩
  | succ k ih =>
    intro fuel page acc reqs hk hlim hfull hstop
    obtain ⟨fuel', rfl⟩ : ∃ fuel', fuel = fuel' + 1 := ⟨fuel - 1, by omega⟩
    obtain ⟨resp, hr, hs, ht, hlen⟩ := hfull 0 (Nat.succ_pos k)
    rw [Nat.add_zero] at hr
    have hemp : resp.posts.isEmpty = false := by
      rcases hpp : resp.posts with _ | ⟨a, t⟩
      · rw [hpp] at hlen; simp at hlen; omega
      · rfl
    unfold wdFetchAux
    rw [hr]
    dsimp only
    rw [if_neg (by simp [hs]), if_neg (by simp [ht]), if_neg (by simp [hemp]),
      if_neg (by omega : ¬ resp.posts.length < limit)]
    obtain ⟨jobs, hres⟩ := ih fuel' (page + 1) (acc ++ resp.posts.map (wdToRawJob base)) (reqs + 1)
      (by omega) hlim
      (fun j hj => by
        have hf := hfull (j + 1) (by omega)
        rwa [show page + (j + 1) = page + 1 + j by omega] at hf)
      (by
        have hst := hstop
        rwa [show page + (k + 1) = page + 1 + k by omega] at hst)
    refine ⟨jobs, ?_⟩
    rw [show reqs + (k + 1 + 1) = reqs + 1 + (k + 1) by omega]
    exact hres

/-- C7.  The paged connector issues at most `maxPages` page requests; and
as soon as a page comes back well-formed with fewer postings than the page
size (after any run of full pages), the fetch stops with exactly that many
requests — no further page is requested. -/
theorem paged_fetch_request_bounds
    (net : Nat → Except String WdResp) (endpointUrl : String) (limit maxPages : Nat)
    (jobs : List RawJob) (reqs : Nat)
    (hfetch : wd_fetch net endpointUrl limit maxPages = Except.ok (jobs, reqs)) :
    reqs ≤ maxPages
    ∧ ∀ k, k < maxPages → 0 < limit →
        (∀ j, j < k → wdFullPage (net j) limit) →
        (∃ resp, net k = Except.ok resp ∧ resp.status = 200
          ∧ resp.hasJobPostingsToken = true ∧ resp.posts.length < limit) →
        reqs = k + 1 := by
  constructor
  · have h := wdFetchAux_reqs_le net (pyRstripSlash endpointUrl) limit maxPages 0 [] 0 jobs reqs
      hfetch
    omega
  · intro k hk hlim hfull hshort
    obtain ⟨jobs', hres⟩ := wdFetchAux_stops_at net (pyRstripSlash endpointUrl) limit k maxPages
      0 [] 0 hk hlim
      (fun j hj => by simpa using hfull j hj)
      (Or.inr (by
        obtain ⟨resp, h1, _, _, h4⟩ := hshort
        exact ⟨resp, by simpa using h1, Or.inr (Or.inr h4)⟩))
    unfold wd_fetch at hfetch
    rw [hfetch] at hres
    simp only [Except.ok.injEq, Prod.mk.injEq] at hres
    omega

/-- C7 witness: scenario 5 — page size 50, a full first page, a 12-item
second page: the fetch answers normally after exactly 2 of the allowed 6
page requests. -/
theorem paged_fetch_request_bounds_witness :
    ∃ p : List RawJob × Nat,
      wd_fetch netC7 "https://e/jobs" 50 6 = Except.ok p ∧ p.2 ≤ 6 ∧ p.2 = 2 := by
  obtain ⟨out, hfetch⟩ := wd_fetch_always_ok netC7 "https://e/jobs" 50 6
  have h := paged_fetch_request_bounds netC7 "https://e/jobs" 50 6 out.1 out.2
    (by rw [hfetch])
  refine ⟨out, hfetch, h.1, ?_⟩
  refine h.2 1 (by omega) (by omega) ?_ ?_
  · intro j hj
    interval_cases j
    exact ⟨⟨200, true, List.replicate 50 wdPostFix⟩, rfl, rfl, rfl,
      by rw [List.length_replicate]⟩
  · exact ⟨⟨200, true, List.replicate 12 wdPostFix⟩, rfl, rfl, rfl,
      by rw [List.length_replicate]; omega⟩

/-- C8 counterexample.  When the very first page request raises a timeout,
the Workday connector call does not abort with the error: the `except`
arms catch it and the call returns normally with the (empty) partial
result after that one request — nothing propagates to the orchestrator. -/
theorem wd_fetch_error_counterexample :
    wd_fetch netTimeout "https://e/jobs" 50 6 = Except.ok ([], 1) := rfl

/-- C8 (amended).  A network/timeout error on an individual page request
is caught inside the connector (`except requests.exceptions.RequestException`
/ `except Exception`: print and break): the fetch call never raises, it
stops paging at the failed request and returns the items gathered so far
as an ordinary successful result, so the orchestrator cannot observe the
error as a per-source failure. -/
theorem wd_fetch_error_swallowed
    (net : Nat → Except String WdResp) (endpointUrl : String) (limit maxPages k : Nat)
    (e : String)
    (hk : k < maxPages) (hlim : 0 < limit)
    (hfull : ∀ j, j < k → wdFullPage (net j) limit)
    (herr : net k = Except.error e) :
    ∃ jobs, wd_fetch net endpointUrl limit maxPages = Except.ok (jobs, k + 1) := by
  obtain ⟨jobs, hres⟩ := wdFetchAux_stops_at net (pyRstripSlash endpointUrl) limit k maxPages
    0 [] 0 hk hlim
    (fun j hj => by simpa using hfull j hj)
    (Or.inl ⟨e, by simpa using herr⟩)
  refine ⟨jobs, ?_⟩
  unfold wd_fetch
  simpa using hres

/-- C8 (amended) witness: a timeout on the first page yields a normal
(empty) result after one request. -/
theorem wd_fetch_error_swallowed_witness :
    ∃ jobs, wd_fetch netTimeout "https://e/jobs" 50 6 = Except.ok (jobs, 1) :=
  wd_fetch_error_swallowed netTimeout "https://e/jobs" 50 6 0 "ConnectTimeout"
    (by omega) (by omega) (fun j hj => absurd hj (by omega)) rfl

/-- C3 counterexample.  Two configured sources, the first of which raises
on fetch: the run completes (company 1 is even auto-created before the
fetch) and the surviving source's postings are ingested, but the audit log
holds no entry at all for the failed source — not the one failed entry the
claim requires — because the `except` arm `continue`s before
`upsert_jobs_raw` is reached. -/
theorem orchestrator_failed_audit_counterexample :
    ((runRows 0 [rowErrC3, rowOkC3] initOrchState).audit.filter
        (fun a => a.company_id == 1)).length = 0
    ∧ (runRows 0 [rowErrC3, rowOkC3] initOrchState).audit
        = [⟨2, none, "https://g/jobs", 1⟩]
    ∧ (runRows 0 [rowErrC3, rowOkC3] initOrchState).companies
        = [("AlphaBank", 1), ("BetaBank", 2)]
    ∧ (runRows 0 [rowErrC3, rowOkC3] initOrchState).total = 1 := by
  refine ⟨?_, ?_, ?_, ?_⟩ <;> decide

/-- C3 (amended).  When a source's connector call raises, the orchestrator
run is not aborted and every other source is processed exactly as it would
be on its own; but the failed source leaves the audit log, the jobs table
and the upsert total untouched — no failed audit-log entry is recorded
(the failure is only printed), the row can at most auto-create its company
entry before fetching. -/
theorem fetch_failure_isolated
    (row : SourceRow) (e : String) (he : row.fetchOutcome = Except.error e) :
    (∀ (now : Nat) (s : OrchState),
      (processRow now s row).audit = s.audit
      ∧ (processRow now s row).jobs = s.jobs
      ∧ (processRow now s row).total = s.total)
    ∧ ∀ (now : Nat) (pre post : List SourceRow) (s0 : OrchState),
        runRows now (pre ++ row :: post) s0
          = runRows now post (processRow now (runRows now pre s0) row) := by
  constructor
  · intro now s
    have key : ∃ c n, processRow now s row = { s with companies := c, nextId := n } := by
      unfold processRow
      dsimp only
      by_cases h1 : (pyStrip row.company == "" || pyStartsWith (pyStrip row.company) "#") = true
      · rw [if_pos h1]; exact ⟨s.companies, s.nextId, rfl⟩
      · rw [if_neg h1]
        by_cases h2 : (!pyTruthy row.activeRaw true) = true
        · rw [if_pos h2]; exact ⟨s.companies, s.nextId, rfl⟩
        · rw [if_neg h2]
          by_cases h3 : (!handledKinds.contains (pyStrip row.kind)) = true
          · rw [if_pos h3]; exact ⟨_, _, rfl⟩
          · rw [if_neg h3, he]; exact ⟨_, _, rfl⟩
    obtain ⟨c, n, hk⟩ := key
    rw [hk]
    exact ⟨rfl, rfl, rfl⟩
  · intro now pre post s0
    unfold runRows
    rw [List.foldl_append]
    rfl

/-- C3 (amended) witness: the failing source of the counterexample leaves
audit/jobs/total unchanged on the initial state, and the two-source run
factors through it. -/
theorem fetch_failure_isolated_witness :
    (processRow 0 initOrchState rowErrC3).audit = initOrchState.audit
    ∧ (processRow 0 initOrchState rowErrC3).jobs = initOrchState.jobs
    ∧ (processRow 0 initOrchState rowErrC3).total = initOrchState.total
    ∧ runRows 0 ([] ++ rowErrC3 :: [rowOkC3]) initOrchState
        = runRows 0 [rowOkC3] (processRow 0 (runRows 0 [] initOrchState) rowErrC3) := by
  have h := fetch_failure_isolated rowErrC3 "ConnectionError" rfl
  exact ⟨(h.1 0 initOrchState).1, (h.1 0 initOrchState).2.1, (h.1 0 initOrchState).2.2,
    h.2 0 [] [rowOkC3] initOrchState⟩

end JobScraper
